import Mathlib

/-!
Shallow embedding of `src/wrappers/src/fdw/stripe_fdw/stripe_fdw.rs`.

JSON values are modelled after `serde_json::Value` (numbers restricted to the
integers the claims exercise), cells after `supabase_wrappers::Cell`, and the
scan engine after `StripeFdw::begin_scan` / `iter_scan`.  Rust panics
(`unwrap` on `None`/`Err`) are modelled as `Except.error ()`: a computation
that reaches an unguarded unwrap has no ordinary result.  The HTTP transport
is modelled as an oracle `Nat → FetchResult` giving the outcome of the n-th
issued request; `report_error` calls are modelled as flags on the result.
-/

namespace StripeFdw

/-- JSON values, after `serde_json::Value`.  Numbers are modelled as integers
(the source only ever reads numbers through `as_i64`); objects are
association lists with the keys assumed unique, as produced by serde maps. -/
inductive JsonValue where
  | null
  | bool (b : Bool)
  | num (n : Int)
  | str (s : String)
  | arr (xs : List JsonValue)
  | obj (kvs : List (String × JsonValue))

/-- Lookup in a JSON object association list, modelling `serde_json::Map::get`
(keys are unique in maps produced by serde, so first match suffices). -/
def lookupKV (k : String) : List (String × JsonValue) → Option JsonValue
  | [] => none
  | (k0, v0) :: rest => if k0 == k then some v0 else lookupKV k rest

/-- Models `Value::as_object` (success payload only). -/
def JsonValue.asObject : JsonValue → Option (List (String × JsonValue))
  | .obj kvs => some kvs
  | _ => none

/-- Models `value.as_object().and_then(|v| v.get(k))`. -/
def JsonValue.get (v : JsonValue) (k : String) : Option JsonValue :=
  v.asObject.bind (fun kvs => lookupKV k kvs)

/-- Models `Value::as_str`. -/
def JsonValue.asStr : JsonValue → Option String
  | .str s => some s
  | _ => none

/-- Models `Value::as_bool`. -/
def JsonValue.asBool : JsonValue → Option Bool
  | .bool b => some b
  | _ => none

/-- Models `Value::as_i64`: succeeds exactly on numbers representable as a
64-bit signed integer. -/
def JsonValue.asI64 : JsonValue → Option Int
  | .num n => if -(2 ^ 63) ≤ n ∧ n < 2 ^ 63 then some n else none
  | _ => none

/-- Models `Value::as_array`. -/
def JsonValue.asArray : JsonValue → Option (List JsonValue)
  | .arr xs => some xs
  | _ => none

/-- Column cells, after `supabase_wrappers::Cell` restricted to the variants
the spec's data model lists (boolean, integer, string, timestamp,
opaque-JSON).  `Timestamp` carries the Unix-epoch seconds it was built from. -/
inductive Cell where
  | Bool (b : Bool)
  | I64 (n : Int)
  | String (s : String)
  | Timestamp (t : Int)
  | Json (v : JsonValue)

/-- A row: ordered column name to optional cell mapping, after
`supabase_wrappers::Row` (push appends). -/
structure Row where
  cells : List (String × Option Cell)

/-- Predicate values, after `supabase_wrappers::Value`. -/
inductive Value where
  | Cell (c : Cell)
  | Array (cs : List Cell)

/-- A predicate, after `supabase_wrappers::Qual`. -/
structure Qual where
  field : String
  operator : String
  value : Value
  use_or : Bool

/-- A result-count limit, after `supabase_wrappers::Limit` (both are `i64`). -/
structure Limit where
  count : Int
  offset : Int

/-- URLs are modelled as a path plus ordered query pairs; `reqwest::Url`
percent-encoding is not modelled (no claim observes it). -/
structure Url where
  path : String
  query : List (String × String)

/-- Models `Url::join` on a base ending in a slash: appends the segment and
drops any query of the base. -/
def Url.join (u : Url) (s : String) : Url :=
  ⟨u.path ++ s, []⟩

/-- Models `url.query_pairs_mut().append_pair(k, v)`. -/
def appendQueryPair (u : Url) (k v : String) : Url :=
  ⟨u.path, u.query ++ [(k, v)]⟩

/-- Valid input range of `OffsetDateTime::from_unix_timestamp` composed with
`Timestamp::try_from`: Unix-epoch seconds from the Postgres timestamp lower
bound (4713 BC) up to the `time` crate upper bound (year 9999); outside it
the source's `.unwrap()` calls panic. -/
def timestampFromUnixSeconds (a : Int) : Option Int :=
  if -210866803200 ≤ a ∧ a ≤ 253402300799 then some a else none

/-- The per-cell type coercion inside `body_to_rows`: given the schema type
tag and the JSON value found at the field, produce the optional cell.  The
timestamp arm models `v.as_i64().map(|a| .. from_unix_timestamp(a).unwrap() ..)`,
whose unwraps panic (`Except.error`) on out-of-range integers. -/
def coerceCell (colType : String) (v : JsonValue) : Except Unit (Option Cell) :=
  match colType with
  | "bool" => Except.ok (v.asBool.map Cell.Bool)
  | "i64" => Except.ok (v.asI64.map Cell.I64)
  | "string" => Except.ok (v.asStr.map Cell.String)
  | "timestamp" =>
    match v.asI64 with
    | none => Except.ok none
    | some a =>
      match timestampFromUnixSeconds a with
      | some ts => Except.ok (some (Cell.Timestamp ts))
      | none => Except.error ()
  | _ => Except.ok none

/-- The common-column extraction loop of `body_to_rows`: for each target
column, the first matching schema entry (the inner loop breaks after a
match) contributes one pushed cell; unmatched target columns contribute
nothing. -/
def recordCells (o : JsonValue) (common_cols : List (String × String)) :
    List String → Except Unit (List (String × Option Cell))
  | [] => Except.ok []
  | tgt_col :: rest =>
    match common_cols.find? (fun p => p.1 == tgt_col) with
    | none => recordCells o common_cols rest
    | some (col_name, col_type) =>
      match (match o.get col_name with
             | none => Except.ok (none : Option Cell)
             | some v => coerceCell col_type v) with
      | Except.error e => Except.error e
      | Except.ok cell =>
        match recordCells o common_cols rest with
        | Except.error e => Except.error e
        | Except.ok tail => Except.ok ((col_name, cell) :: tail)

/-- One record of `body_to_rows`: common columns, then the reserved `attrs`
column holding the whole record (the source serializes and reparses the
record, which is the identity on the JSON value). -/
def recordToRow (o : JsonValue) (common_cols : List (String × String))
    (tgt_cols : List String) : Except Unit Row :=
  match recordCells o common_cols tgt_cols with
  | Except.error e => Except.error e
  | Except.ok cells =>
    Except.ok ⟨if tgt_cols.any (fun c => c == "attrs") then
        cells ++ [("attrs", some (Cell.Json o))]
      else cells⟩

/-- The record loop of `body_to_rows`. -/
def mapRecords (common_cols : List (String × String)) (tgt_cols : List String) :
    List JsonValue → Except Unit (List Row)
  | [] => Except.ok []
  | o :: rest =>
    match recordToRow o common_cols tgt_cols with
    | Except.error e => Except.error e
    | Except.ok row =>
      match mapRecords common_cols tgt_cols rest with
      | Except.error e => Except.error e
      | Except.ok rows => Except.ok (row :: rows)

/-- Models `body_to_rows` after the `serde_json::from_str` step: the input is
the parsed JSON value of the response body.  `Except.error ()` models the
panics of the unguarded `unwrap()` calls on the envelope shape. -/
def body_to_rows (value : JsonValue) (obj_key : String)
    (common_cols : List (String × String)) (tgt_cols : List String) :
    Except Unit (List Row × Option String × Option Bool) :=
  let is_list :=
    (((value.get "object").bind JsonValue.asStr).map (fun v => v == "list")).getD false
  let objsE : Except Unit (List JsonValue) :=
    if is_list then
      match (value.get obj_key).bind JsonValue.asArray with
      | some a => Except.ok a
      | none => Except.error ()
    else
      match value.asObject with
      | some o => Except.ok [JsonValue.obj o]
      | none => Except.error ()
  match objsE with
  | Except.error e => Except.error e
  | Except.ok objs =>
    match mapRecords common_cols tgt_cols objs with
    | Except.error e => Except.error e
    | Except.ok rows =>
      let cursor :=
        match objs.getLast? with
        | some last => (last.get "id").bind JsonValue.asStr
        | none => none
      let has_more := (value.get "has_more").bind JsonValue.asBool
      Except.ok (rows, cursor, has_more)

/-- Models `serde_json::Map::insert`: replaces the value of an existing key,
otherwise adds the pair (insertion order stands in for the map's key order;
no claim observes ordering, only lookups). -/
def mapInsert : List (String × JsonValue) → String → JsonValue → List (String × JsonValue)
  | [], k, v => [(k, v)]
  | (k0, v0) :: rest, k, v =>
    if k0 == k then (k0, v) :: rest else (k0, v0) :: mapInsert rest k v

/-- Models `BTreeMap::append`: inserts every pair of the second map,
overwriting duplicates. -/
def mapAppend (m : List (String × JsonValue)) : List (String × JsonValue) → List (String × JsonValue)
  | [] => m
  | (k, v) :: rest => mapAppend (mapInsert m k v) rest

/-- The cell loop of `row_to_body`.  Returns the body and whether
`report_error` was invoked (the unsupported-field-type arm), in which case
the body is `Null`.  A `Json` cell on a column other than `attrs` falls into
the `Cell::Json` arm whose `if` does nothing: it is silently dropped. -/
def row_to_body_go : List (String × Option Cell) → List (String × JsonValue) → JsonValue × Bool
  | [], m => (JsonValue.obj m, false)
  | (col_name, cell) :: rest, m =>
    match cell with
    | none => row_to_body_go rest m
    | some (Cell.Bool b) => row_to_body_go rest (mapInsert m col_name (JsonValue.bool b))
    | some (Cell.I64 n) => row_to_body_go rest (mapInsert m col_name (JsonValue.num n))
    | some (Cell.String s) => row_to_body_go rest (mapInsert m col_name (JsonValue.str s))
    | some (Cell.Json v) =>
      row_to_body_go rest
        (if col_name == "attrs" then
          match v.asObject with
          | some kvs => mapAppend m kvs
          | none => m
        else m)
    | some (Cell.Timestamp _) => (JsonValue.null, true)

/-- Models `row_to_body`: the JSON body and whether a fatal
"field type not supported" error was reported. -/
def row_to_body (row : Row) : JsonValue × Bool :=
  row_to_body_go row.cells []

/-- Models `StripeFdw::insert` up to the network boundary (client present):
whether the POST request is issued at all.  The source skips the call when
the encoded body is `Null`. -/
def insert_issues_request (row : Row) : Bool :=
  match row_to_body row with
  | (JsonValue.null, _) => false
  | _ => true

/-- Models `pushdown_single_id`.  `Url::parse` of a well-formed base joined
with an id segment is modelled as always succeeding. -/
def pushdown_single_id (url : Url) (quals : List Qual) : Option Url :=
  match quals with
  | [qual] =>
    if qual.field == "id" && qual.operator == "=" && !qual.use_or then
      match qual.value with
      | Value.Cell (Cell.String s) => some ⟨url.path ++ "/" ++ s, url.query⟩
      | _ => none
    else none
  | _ => none

/-- The inner field loop of `pushdown_quals` for one predicate. -/
def pushdown_quals_fields (u : Url) (qual : Qual) : List String → Url
  | [] => u
  | field :: rest =>
    let u :=
      if qual.field == field && qual.operator == "=" && !qual.use_or then
        match qual.value with
        | Value.Cell (Cell.Bool b) => appendQueryPair u field (toString b)
        | Value.Cell (Cell.String s) => appendQueryPair u field s
        | _ => u
      else u
    pushdown_quals_fields u qual rest

/-- Models `pushdown_quals`: appends a query pair for every predicate that is
an equality, non-disjunctive, on a listed field, with a boolean or string
cell value. -/
def pushdown_quals (u : Url) (quals : List Qual) (fields : List String) : Url :=
  match quals with
  | [] => u
  | qual :: rest => pushdown_quals (pushdown_quals_fields u qual fields) rest fields

/-- The pagination tail of `build_url`: page-size `limit` parameter and the
`starting_after` cursor when present. -/
def addPagination (u : Url) (page_size : Int) (cursor : Option String) : Url :=
  let u := appendQueryPair u "limit" (toString page_size)
  match cursor with
  | some c => appendQueryPair u "starting_after" c
  | none => u

/-- Models `StripeFdw::build_url`: the chain of per-object pushdown branches,
the single-id early returns for customers, products and subscriptions, and
the pagination parameters for every object except `balance`. -/
def build_url (base_url : Url) (obj : String) (quals : List Qual)
    (page_size : Int) (cursor : Option String) : Option Url :=
  let url := Url.join base_url obj
  let url := if obj == "balance_transactions" then pushdown_quals url quals ["payout", "type"] else url
  let url := if obj == "charges" then pushdown_quals url quals ["customer"] else url
  if obj == "customers" && (pushdown_single_id url quals).isSome then
    pushdown_single_id url quals
  else
  let url := if obj == "customers" then pushdown_quals url quals ["email"] else url
  let url := if obj == "invoices" then pushdown_quals url quals ["customer", "status", "subscription"] else url
  let url := if obj == "payment_intents" then pushdown_quals url quals ["customer"] else url
  if obj == "products" && (pushdown_single_id url quals).isSome then
    pushdown_single_id url quals
  else
  let url := if obj == "products" then pushdown_quals url quals ["active"] else url
  if obj == "subscriptions" && (pushdown_single_id url quals).isSome then
    pushdown_single_id url quals
  else
  let url := if obj == "subscriptions" then pushdown_quals url quals ["customer", "price", "status"] else url
  let url := if obj != "balance" then addPagination url page_size cursor else url
  some url

/-- Models `StripeFdw::resp_to_rows`: the per-object schema table.  The
default arm reports an unsupported-object error and yields no rows (the
reporting itself is not tracked here). -/
def resp_to_rows (obj : String) (body : JsonValue) (tgt_cols : List String) :
    Except Unit (List Row × Option String × Option Bool) :=
  match obj with
  | "balance" =>
    body_to_rows body "available" [("amount", "i64"), ("currency", "string")] tgt_cols
  | "balance_transactions" =>
    body_to_rows body "data"
      [("id", "string"), ("amount", "i64"), ("currency", "string"),
       ("description", "string"), ("fee", "i64"), ("net", "i64"),
       ("status", "string"), ("type", "string"), ("created", "timestamp")] tgt_cols
  | "charges" =>
    body_to_rows body "data"
      [("id", "string"), ("amount", "i64"), ("currency", "string"),
       ("customer", "string"), ("description", "string"), ("invoice", "string"),
       ("payment_intent", "string"), ("status", "string"), ("created", "timestamp")] tgt_cols
  | "customers" =>
    body_to_rows body "data"
      [("id", "string"), ("email", "string"), ("name", "string"),
       ("description", "string"), ("created", "timestamp")] tgt_cols
  | "invoices" =>
    body_to_rows body "data"
      [("id", "string"), ("customer", "string"), ("subscription", "string"),
       ("status", "string"), ("total", "i64"), ("currency", "string"),
       ("period_start", "timestamp"), ("period_end", "timestamp")] tgt_cols
  | "payment_intents" =>
    body_to_rows body "data"
      [("id", "string"), ("customer", "string"), ("amount", "i64"),
       ("currency", "string"), ("payment_method", "string"), ("created", "timestamp")] tgt_cols
  | "products" =>
    body_to_rows body "data"
      [("id", "string"), ("name", "string"), ("active", "bool"),
       ("default_price", "string"), ("description", "string"),
       ("created", "timestamp"), ("updated", "timestamp")] tgt_cols
  | "subscriptions" =>
    body_to_rows body "data"
      [("id", "string"), ("customer", "string"), ("currency", "string"),
       ("current_period_start", "timestamp"), ("current_period_end", "timestamp")] tgt_cols
  | _ => Except.ok ([], none, none)

/-- Outcome of one HTTP GET as the scan sees it: a successfully parsed JSON
body, or a transport error / non-success status (both source arms invoke
`report_request_error`). -/
inductive FetchResult where
  | success (body : JsonValue)
  | failure

/-- Result of `begin_scan`: the `scan_result` field afterwards (`none` when
the scan returned without storing results), the cursor argument of each
issued fetch in order, and whether `report_request_error` fired. -/
structure ScanOutcome where
  scan_result : Option (List Row)
  trace : List (Option String)
  errored : Bool

/-- The `while page < page_cnt` loop of `begin_scan`, with the remaining
iteration count as fuel.  The oracle `fetch` gives the outcome of the n-th
issued request; the n-th request is issued with the cursor recorded as the
n-th trace entry. -/
def scan_loop (fetch : Nat → FetchResult) (base_url : Url) (obj : String)
    (quals : List Qual) (columns : List String) (page_size : Int) :
    Nat → Option String → List Row → List (Option String) → Except Unit ScanOutcome
  | 0, _, acc, trace => Except.ok ⟨some acc, trace, false⟩
  | fuel + 1, cursor, acc, trace =>
    match build_url base_url obj quals page_size cursor with
    | none => Except.ok ⟨none, trace, false⟩
    | some _ =>
      match fetch trace.length with
      | FetchResult.failure => Except.ok ⟨none, trace ++ [cursor], true⟩
      | FetchResult.success body =>
        match resp_to_rows obj body columns with
        | Except.error e => Except.error e
        | Except.ok (rows, starting_after, has_more) =>
          if rows.isEmpty then Except.ok ⟨some acc, trace ++ [cursor], false⟩
          else
            match has_more with
            | none => Except.ok ⟨some (acc ++ rows), trace ++ [cursor], false⟩
            | some false => Except.ok ⟨some (acc ++ rows), trace ++ [cursor], false⟩
            | some true =>
              scan_loop fetch base_url obj quals columns page_size fuel
                starting_after (acc ++ rows) (trace ++ [cursor])

/-- Models `i64::MAX`, the page budget used when no limit is supplied. -/
def i64Max : Int := 2 ^ 63 - 1

/-- Models `StripeFdw::begin_scan` for a configured object and client: the
page budget is `(offset + count) / page_size + 1` (Rust `i64` division,
truncating) under a limit with nonzero count, `i64::MAX` otherwise; a
zero-count limit returns before any fetch with `scan_result` unset. -/
def begin_scan (base_url : Url) (obj : String) (quals : List Qual)
    (columns : List String) (limit : Option Limit) (fetch : Nat → FetchResult) :
    Except Unit ScanOutcome :=
  let page_size : Int := 100
  match limit with
  | some l =>
    if l.count == 0 then Except.ok ⟨none, [], false⟩
    else
      scan_loop fetch base_url obj quals columns page_size
        (Int.tdiv (l.offset + l.count) page_size + 1).toNat none [] []
  | none =>
    scan_loop fetch base_url obj quals columns page_size i64Max.toNat none [] []

/-- Models `StripeFdw::iter_scan` on the stored `scan_result`: the delivered
row (if any) and the remaining state. -/
def iter_scan (scan_result : Option (List Row)) : Option Row × Option (List Row) :=
  match scan_result with
  | none => (none, none)
  | some [] => (none, some [])
  | some (r :: rest) => (some r, some rest)

/-- The default Stripe API base URL of `StripeFdw::new`. -/
def stripeBase : Url := ⟨"https://api.stripe.com/v1/", []⟩

/-- The page budget the spec prescribes: the ceiling of
(offset + count) / page_size, written for nonnegative operands.  Stated from
the spec's words, for comparison with the budget the source computes. -/
def ceilDiv (a b : Int) : Int := Int.tdiv (a + b - 1) b

/-- A synthetic one-record list page: `{object:"list", data:[{id}], has_more}`. -/
def pageBody (i : String) (more : Bool) : JsonValue :=
  JsonValue.obj [("object", JsonValue.str "list"),
    ("data", JsonValue.arr [JsonValue.obj [("id", JsonValue.str i)]]),
    ("has_more", JsonValue.bool more)]

/-- Spec characterization of a single-object URL: a path of the form
base/{resource}/{id}, with no query parameters (the spec's single-object
shortcut bypasses pagination entirely).  Stated from the spec's words. -/
def isSingleObjectUrl (base : Url) (obj : String) (u : Url) : Prop :=
  ∃ idv : String, u.path = base.path ++ obj ++ "/" ++ idv ∧ u.query = []

/-- C1, counterexample: with limit (offset 0, count 100) and page size 100 the
spec's budget is ceil(100/100) = 1 page, but the scan issues 2 fetches when
the first page reports `has_more`: the source budget is
`(offset+count)/page_size + 1`, one more than the ceiling at exact multiples. -/
theorem C1_counterexample :
    begin_scan stripeBase "customers" [] [] (some ⟨100, 0⟩)
        (fun _ => FetchResult.success (pageBody "cus_1" true))
      = Except.ok ⟨some [⟨[]⟩, ⟨[]⟩], [none, some "cus_1"], false⟩
    ∧ ceilDiv (0 + 100) 100 = 1
    ∧ ¬ (([none, some "cus_1"] : List (Option String)).length ≤ (ceilDiv (0 + 100) 100).toNat) := by
  refine ⟨rfl, rfl, ?_⟩
  decide

/-- C2, counterexample: a `created` field holding the JSON integer 10^18 (a
valid `i64`, far outside the representable timestamp range) does not degrade
to an empty cell: the decode reaches `from_unix_timestamp(..).unwrap()` and
panics, aborting the whole row and scan. -/
theorem C2_counterexample :
    resp_to_rows "customers"
        (JsonValue.obj [("created", JsonValue.num 1000000000000000000)]) ["created"]
      = Except.error () := rfl

/-- C3, counterexample: a predicate list holding exactly one non-disjunctive
equality on `id` whose value is an integer cell does not produce a
single-object URL for `customers`: the builder falls through to the
collection URL with pagination parameters. -/
theorem C3_counterexample :
    build_url stripeBase "customers" [⟨"id", "=", Value.Cell (Cell.I64 42), false⟩] 100 none
      = some ⟨"https://api.stripe.com/v1/customers", [("limit", "100")]⟩
    ∧ ¬ isSingleObjectUrl stripeBase "customers"
        ⟨"https://api.stripe.com/v1/customers", [("limit", "100")]⟩ := by
  refine ⟨rfl, ?_⟩
  rintro ⟨idv, -, hq⟩
  simp at hq

/-- C4, counterexample: an equality, non-disjunctive predicate on a
pushdownable field (`email`) whose value is an integer cell is not appended
as a query parameter, although the claim requires every such predicate to be
appended. -/
theorem C4_counterexample :
    (Qual.mk "email" "=" (Value.Cell (Cell.I64 5)) false).operator = "="
    ∧ (Qual.mk "email" "=" (Value.Cell (Cell.I64 5)) false).use_or = false
    ∧ (Qual.mk "email" "=" (Value.Cell (Cell.I64 5)) false).field ∈ ["email"]
    ∧ (pushdown_quals ⟨"https://api.stripe.com/v1/customers", []⟩
        [Qual.mk "email" "=" (Value.Cell (Cell.I64 5)) false] ["email"]).query = [] := by
  refine ⟨rfl, rfl, ?_, rfl⟩
  simp

/-- C8, counterexample: a populated JSON cell on a column other than the
reserved `attrs` (here `metadata`) is neither boolean, integer, string, nor
the attrs cell, yet encoding reports no error and produces a non-null body
(the cell is silently dropped), and the insert still issues its request. -/
theorem C8_counterexample :
    row_to_body ⟨[("metadata", some (Cell.Json (JsonValue.obj [("k", JsonValue.str "v")])))]⟩
      = (JsonValue.obj [], false)
    ∧ insert_issues_request
        ⟨[("metadata", some (Cell.Json (JsonValue.obj [("k", JsonValue.str "v")])))]⟩ = true :=
  ⟨rfl, rfl⟩

/-- Whether a cell is a string cell (the only value shape the single-id
shortcut accepts). -/
def isStringCell : Cell → Bool
  | Cell.String _ => true
  | _ => false

/-- The single-id shortcut yields nothing when the lone predicate's value is
not a string cell. -/
lemma pushdown_single_id_not_string (u : Url) (f op : String) (c : Cell) (uo : Bool)
    (hc : isStringCell c = false) :
    pushdown_single_id u [⟨f, op, Value.Cell c, uo⟩] = none := by
  cases c <;> simp_all [pushdown_single_id, isStringCell]

/-- C3, amended: for customers, products and subscriptions, a predicate list
consisting of exactly one non-disjunctive equality on `id` whose value is a
string cell makes the URL builder return the single-object URL
base/{resource}/{id} with no query parameters, bypassing generic pushdown
and pagination. -/
theorem C3_single_id_amended (base : Url) (obj : String) (s : String)
    (page_size : Int) (cursor : Option String)
    (hobj : obj = "customers" ∨ obj = "products" ∨ obj = "subscriptions") :
    build_url base obj [⟨"id", "=", Value.Cell (Cell.String s), false⟩] page_size cursor
      = some ⟨base.path ++ obj ++ "/" ++ s, []⟩
    ∧ isSingleObjectUrl base obj ⟨base.path ++ obj ++ "/" ++ s, []⟩ := by
  refine ⟨?_, ⟨s, rfl, rfl⟩⟩
  rcases hobj with rfl | rfl | rfl <;>
    simp [build_url, pushdown_single_id, pushdown_quals, pushdown_quals_fields, Url.join,
      String.append_assoc]

/-- C9: the single-object shortcut needs a string-valued cell.  For the three
lookup-capable resources, a lone non-disjunctive equality on `id` whose value
is any non-string cell falls through to the generic path: the collection URL
with pagination parameters, never a single-object URL. -/
theorem C9_non_string_id_falls_through (base : Url) (obj : String) (c : Cell)
    (cursor : Option String)
    (hobj : obj = "customers" ∨ obj = "products" ∨ obj = "subscriptions")
    (hc : isStringCell c = false) :
    build_url base obj [⟨"id", "=", Value.Cell c, false⟩] 100 cursor
      = some (addPagination (Url.join base obj) 100 cursor)
    ∧ ¬ isSingleObjectUrl base obj (addPagination (Url.join base obj) 100 cursor) := by
  constructor
  · rcases hobj with rfl | rfl | rfl <;>
      cases c <;>
        simp_all [build_url, pushdown_single_id, pushdown_quals, pushdown_quals_fields,
          isStringCell]
  · rintro ⟨idv, -, hq⟩
    cases cursor <;> simp [addPagination, appendQueryPair, Url.join] at hq

/-- Witness for the amended C3 at a concrete customer id. -/
theorem C3_single_id_amended_witness :
    build_url stripeBase "customers" [⟨"id", "=", Value.Cell (Cell.String "cus_7"), false⟩] 100 none
      = some ⟨stripeBase.path ++ "customers" ++ "/" ++ "cus_7", []⟩
    ∧ isSingleObjectUrl stripeBase "customers"
        ⟨stripeBase.path ++ "customers" ++ "/" ++ "cus_7", []⟩ :=
  C3_single_id_amended stripeBase "customers" "cus_7" 100 none (Or.inl rfl)

/-- Witness for C9 at a concrete integer-valued id predicate on products. -/
theorem C9_witness :
    build_url stripeBase "products" [⟨"id", "=", Value.Cell (Cell.I64 42), false⟩] 100 (some "p_1")
      = some (addPagination (Url.join stripeBase "products") 100 (some "p_1"))
    ∧ ¬ isSingleObjectUrl stripeBase "products"
        (addPagination (Url.join stripeBase "products") 100 (some "p_1")) :=
  C9_non_string_id_falls_through stripeBase "products" (Cell.I64 42) (some "p_1")
    (Or.inr (Or.inl rfl)) rfl

/-- The query pairs one predicate contributes under the amended C4: one pair
per listed field the predicate matches with an equality, non-disjunctive
comparison whose value is a boolean or string cell.  Stated from the amended
claim's words, for comparison with `pushdown_quals`. -/
def qualParams (q : Qual) : List String → List (String × String)
  | [] => []
  | field :: rest =>
    (if q.field == field && q.operator == "=" && !q.use_or then
      match q.value with
      | Value.Cell (Cell.Bool b) => [(field, toString b)]
      | Value.Cell (Cell.String s) => [(field, s)]
      | _ => []
    else []) ++ qualParams q rest

/-- The concatenated contributions of a predicate list, in order. -/
def qualsParams (fields : List String) : List Qual → List (String × String)
  | [] => []
  | q :: rest => qualParams q fields ++ qualsParams fields rest

/-- The inner field loop appends exactly one predicate's contribution. -/
lemma pushdown_quals_fields_eq (q : Qual) :
    ∀ (fields : List String) (u : Url),
    pushdown_quals_fields u q fields = ⟨u.path, u.query ++ qualParams q fields⟩ := by
  intro fields
  induction fields with
  | nil => intro u; simp [pushdown_quals_fields, qualParams]
  | cons f rest ih =>
    intro u
    simp only [pushdown_quals_fields, qualParams]
    cases hcond : (q.field == f && q.operator == "=" && !q.use_or) with
    | false => rw [ih]; simp
    | true =>
      cases hv : q.value with
      | Cell c => cases c <;> rw [ih] <;> simp [appendQueryPair]
      | Array cs => rw [ih]; simp

/-- C4, amended: the URL produced by pushdown keeps the path and extends the
query with exactly the pairs of predicates that are equality,
non-disjunctive, on a listed field, and carry a boolean or string cell
value; every other predicate contributes nothing, and no predicate removes
or alters the pairs contributed by others (the output is the untouched input
query followed by each predicate's own contribution, in order). -/
theorem C4_pushdown_amended (u : Url) (quals : List Qual) (fields : List String) :
    pushdown_quals u quals fields = ⟨u.path, u.query ++ qualsParams fields quals⟩ := by
  induction quals generalizing u with
  | nil => simp [pushdown_quals, qualsParams]
  | cons q rest ih =>
    simp only [pushdown_quals, qualsParams]
    rw [pushdown_quals_fields_eq, ih]
    simp [List.append_assoc]

/-- Any populated cell reaching the unsupported arm of the encoder (in this
model the timestamp cell, standing for every cell that is not boolean,
integer, string or JSON) makes the whole encode bail out with a reported
error and a null body, whatever was accumulated before. -/
lemma row_to_body_go_unsupported :
    ∀ (cells : List (String × Option Cell)) (m : List (String × JsonValue)),
    (∃ p ∈ cells, ∃ t : Int, p.2 = some (Cell.Timestamp t)) →
    row_to_body_go cells m = (JsonValue.null, true) := by
  intro cells
  induction cells with
  | nil => rintro m ⟨p, hp, _⟩; cases hp
  | cons hd rest ih =>
    rintro m ⟨p, hp, t, hpt⟩
    obtain ⟨n, oc⟩ := hd
    rcases List.mem_cons.mp hp with rfl | hmem
    · simp only at hpt
      subst hpt
      rfl
    · cases oc with
      | none => exact ih m ⟨p, hmem, t, hpt⟩
      | some c =>
        cases c with
        | Bool b => exact ih _ ⟨p, hmem, t, hpt⟩
        | I64 k => exact ih _ ⟨p, hmem, t, hpt⟩
        | String s => exact ih _ ⟨p, hmem, t, hpt⟩
        | Timestamp t2 => rfl
        | Json v => exact ih _ ⟨p, hmem, t, hpt⟩

/-- C8, amended: a populated cell of a type other than boolean, integer,
string or JSON (modelled by the timestamp cell, the arm the source's
catch-all error handles) makes encoding report the fatal unsupported-type
error and produce a null body, and the insert then skips the network call;
a JSON cell on a non-attrs column is instead silently dropped
(see the counterexample). -/
theorem C8_encode_unsupported_amended (cells : List (String × Option Cell))
    (h : ∃ p ∈ cells, ∃ t : Int, p.2 = some (Cell.Timestamp t)) :
    row_to_body ⟨cells⟩ = (JsonValue.null, true)
    ∧ insert_issues_request ⟨cells⟩ = false := by
  have hb : row_to_body ⟨cells⟩ = (JsonValue.null, true) :=
    row_to_body_go_unsupported cells [] h
  refine ⟨hb, ?_⟩
  simp [insert_issues_request, hb]

/-- Witness for the amended C8 at a concrete timestamp cell. -/
theorem C8_amended_witness :
    row_to_body ⟨[("created", some (Cell.Timestamp 0))]⟩ = (JsonValue.null, true)
    ∧ insert_issues_request ⟨[("created", some (Cell.Timestamp 0))]⟩ = false :=
  C8_encode_unsupported_amended _
    ⟨("created", some (Cell.Timestamp 0)), List.mem_singleton.mpr rfl, 0, rfl⟩

/-- Each loop iteration issues at most one fetch: the fetch trace grows by at
most the remaining fuel. -/
lemma scan_loop_trace_length (fetch : Nat → FetchResult) (base : Url) (obj : String)
    (quals : List Qual) (cols : List String) (ps : Int) :
    ∀ (fuel : Nat) (cursor : Option String) (acc : List Row)
      (trace : List (Option String)) (o : ScanOutcome),
    scan_loop fetch base obj quals cols ps fuel cursor acc trace = Except.ok o →
    o.trace.length ≤ trace.length + fuel := by
  intro fuel
  induction fuel with
  | zero =>
    intro cursor acc trace o h
    simp only [scan_loop] at h
    injection h with h
    subst h
    simp
  | succ m ih =>
    intro cursor acc trace o h
    simp only [scan_loop] at h
    split at h
    · injection h with h; subst h; simp
    · split at h
      · injection h with h; subst h; simp
      · split at h
        · simp at h
        · split at h
          · injection h with h; subst h; simp
          · split at h
            · injection h with h; subst h; simp
            · injection h with h; subst h; simp
            · have := ih _ _ _ _ h
              simp only [List.length_append, List.length_cons, List.length_nil] at this
              omega

/-- C1, amended: the number of page fetches a scan issues is bounded by the
source's page budget `(offset + count) / page_size + 1` (truncating `i64`
division) when a limit with nonzero count is given, and by `i64::MAX` with
no limit; the spec's `ceil((offset+count)/page_size)` is one less than the
source budget exactly when offset + count is a positive multiple of the page
size (see the counterexample). -/
theorem C1_page_budget_amended (base : Url) (obj : String) (quals : List Qual)
    (cols : List String) (fetch : Nat → FetchResult) :
    (∀ (l : Limit) (o : ScanOutcome),
      begin_scan base obj quals cols (some l) fetch = Except.ok o →
      o.trace.length ≤ (Int.tdiv (l.offset + l.count) 100 + 1).toNat)
    ∧ (∀ o : ScanOutcome,
      begin_scan base obj quals cols none fetch = Except.ok o →
      o.trace.length ≤ i64Max.toNat) := by
  constructor
  · intro l o h
    simp only [begin_scan] at h
    split at h
    · injection h with h; subst h; simp
    · have := scan_loop_trace_length fetch base obj quals cols 100 _ _ _ _ _ h
      simpa using this
  · intro o h
    simp only [begin_scan] at h
    have := scan_loop_trace_length fetch base obj quals cols 100 _ _ _ _ _ h
    simpa using this

/-- Witness for the amended C1: a two-page scan under limit (offset 0,
count 100) stays within the source budget of 2 pages. -/
theorem C1_amended_witness :
    (⟨some [⟨[]⟩, ⟨[]⟩], [none, some "cus_1"], false⟩ : ScanOutcome).trace.length
      ≤ (Int.tdiv ((0 : Int) + 100) 100 + 1).toNat :=
  (C1_page_budget_amended stripeBase "customers" [] []
      (fun _ => FetchResult.success (pageBody "cus_1" true))).1
    ⟨100, 0⟩ ⟨some [⟨[]⟩, ⟨[]⟩], [none, some "cus_1"], false⟩ rfl

/-- If an issued fetch failed, the loop ended in the failure arm: the error
was reported and `scan_result` was never set. -/
lemma scan_loop_failure (fetch : Nat → FetchResult) (base : Url) (obj : String)
    (quals : List Qual) (cols : List String) (ps : Int) :
    ∀ (fuel : Nat) (cursor : Option String) (acc : List Row)
      (trace : List (Option String)) (o : ScanOutcome) (n : Nat),
    scan_loop fetch base obj quals cols ps fuel cursor acc trace = Except.ok o →
    trace.length ≤ n → n < o.trace.length → fetch n = FetchResult.failure →
    o.errored = true ∧ o.scan_result = none := by
  intro fuel
  induction fuel with
  | zero =>
    intro cursor acc trace o n h hle hlt hf
    simp only [scan_loop] at h
    injection h with h; subst h
    simp at hlt
    omega
  | succ m ih =>
    intro cursor acc trace o n h hle hlt hf
    simp only [scan_loop] at h
    split at h
    · injection h with h; subst h
      simp at hlt
      omega
    · split at h
      · injection h with h; subst h
        exact ⟨rfl, rfl⟩
      · rename_i body hfe
        split at h
        · simp at h
        · split at h
          · injection h with h; subst h
            simp at hlt
            have hn : n = trace.length := by omega
            rw [hn, hfe] at hf
            simp at hf
          · split at h
            · injection h with h; subst h
              simp at hlt
              have hn : n = trace.length := by omega
              rw [hn, hfe] at hf
              simp at hf
            · injection h with h; subst h
              simp at hlt
              have hn : n = trace.length := by omega
              rw [hn, hfe] at hf
              simp at hf
            · have hne : n ≠ trace.length := by
                intro e
                rw [e, hfe] at hf
                simp at hf
              refine ih _ _ _ _ _ h ?_ hlt hf
              simp only [List.length_append, List.length_cons, List.length_nil]
              omega

/-- C6: if any issued page fetch fails (transport error or non-success
status, both arms of the source report a fatal request error), the scan
outcome carries the reported error, `scan_result` is never stored, and a
subsequent iterate yields no row: rows accumulated from earlier successful
pages of that scan are never delivered. -/
theorem C6_midscan_failure (base : Url) (obj : String) (quals : List Qual)
    (cols : List String) (limit : Option Limit) (fetch : Nat → FetchResult)
    (o : ScanOutcome) (n : Nat)
    (h : begin_scan base obj quals cols limit fetch = Except.ok o)
    (hn : n < o.trace.length) (hf : fetch n = FetchResult.failure) :
    o.errored = true ∧ o.scan_result = none
    ∧ iter_scan o.scan_result = (none, none) := by
  have key : o.errored = true ∧ o.scan_result = none := by
    cases limit with
    | none =>
      simp only [begin_scan] at h
      exact scan_loop_failure fetch base obj quals cols 100 _ _ _ _ _ n h (Nat.zero_le n) hn hf
    | some l =>
      simp only [begin_scan] at h
      split at h
      · injection h with h; subst h
        simp at hn
      · exact scan_loop_failure fetch base obj quals cols 100 _ _ _ _ _ n h (Nat.zero_le n) hn hf
  exact ⟨key.1, key.2, by rw [key.2]; rfl⟩

/-- A transport oracle whose second request fails. -/
def failAfterOne : Nat → FetchResult := fun n =>
  if n == 0 then FetchResult.success (pageBody "cus_1" true) else FetchResult.failure

/-- Witness for C6: one successful page, then a failed fetch. -/
theorem C6_witness :
    (⟨none, [none, some "cus_1"], true⟩ : ScanOutcome).errored = true
    ∧ (⟨none, [none, some "cus_1"], true⟩ : ScanOutcome).scan_result = none
    ∧ iter_scan (⟨none, [none, some "cus_1"], true⟩ : ScanOutcome).scan_result = (none, none) :=
  C6_midscan_failure stripeBase "customers" [] [] (some ⟨1000, 0⟩) failAfterOne
    ⟨none, [none, some "cus_1"], true⟩ 1 rfl (by decide) rfl

/-- A synthetic three-page response sequence with `has_more = true, true,
false`, each page holding one record. -/
def threePages : Nat → FetchResult := fun n =>
  if n == 0 then FetchResult.success (pageBody "id_1" true)
  else if n == 1 then FetchResult.success (pageBody "id_2" true)
  else FetchResult.success (pageBody "id_3" false)

/-- C5: after decoding a list page, the next-page cursor is the string value
of the `id` field of the last record (absent when the page has no records);
and in the synthetic three-page scan the scan issues exactly three fetches,
accumulates the rows of all pages in order, and the cursor passed to fetch
N+1 is the identifier of the last record returned by fetch N. -/
theorem C5_cursor :
    (∀ (value : JsonValue) (obj_key : String) (records : List JsonValue)
        (cc : List (String × String)) (tc : List String)
        (rows : List Row) (cursor : Option String) (hm : Option Bool),
      value.get "object" = some (JsonValue.str "list") →
      value.get obj_key = some (JsonValue.arr records) →
      body_to_rows value obj_key cc tc = Except.ok (rows, cursor, hm) →
      cursor = records.getLast?.bind (fun r => (r.get "id").bind JsonValue.asStr))
    ∧ begin_scan stripeBase "customers" [] ["id"] none threePages
        = Except.ok ⟨some [⟨[("id", some (Cell.String "id_1"))]⟩,
            ⟨[("id", some (Cell.String "id_2"))]⟩, ⟨[("id", some (Cell.String "id_3"))]⟩],
            [none, some "id_1", some "id_2"], false⟩ := by
  constructor
  · intro value obj_key records cc tc rows cursor hm h1 h2 h
    cases hmr : mapRecords cc tc records with
    | error e =>
      simp [body_to_rows, h1, h2, hmr, JsonValue.asStr, JsonValue.asArray] at h
    | ok rows0 =>
      simp [body_to_rows, h1, h2, hmr, JsonValue.asStr, JsonValue.asArray] at h
      obtain ⟨-, hcur, -⟩ := h
      rw [← hcur]
      cases records.getLast? <;> rfl
  · rfl

/-- Witness for C5 at a concrete one-record page. -/
theorem C5_witness :
    (some "id_9" : Option String)
      = ([JsonValue.obj [("id", JsonValue.str "id_9")]].getLast?.bind
          (fun r => (r.get "id").bind JsonValue.asStr)) :=
  C5_cursor.1 (pageBody "id_9" false) "data" [JsonValue.obj [("id", JsonValue.str "id_9")]]
    [] [] [⟨[]⟩] (some "id_9") (some false) rfl rfl rfl

/-- The cell the decode stores for a schema column when no panic occurs:
the coercion's ok-projection. -/
def cellOf (o : JsonValue) (nm ty : String) : Option Cell :=
  match o.get nm with
  | none => none
  | some v =>
    match coerceCell ty v with
    | Except.ok w => w
    | Except.error _ => none

/-- Decidable record safety: every present field value of a requested schema
column coerces without panic (for timestamp columns: absent, non-integer,
or within the representable range). -/
def coerceAllOk (o : JsonValue) (cc : List (String × String)) (tc : List String) : Bool :=
  tc.all (fun n =>
    match cc.find? (fun p => p.1 == n) with
    | none => true
    | some (nm, ty) =>
      match o.get nm with
      | none => true
      | some v =>
        match coerceCell ty v with
        | Except.ok _ => true
        | Except.error _ => false)

/-- On a safe record the extraction loop succeeds and stores exactly the
coerced cell of each requested schema column, in request order. -/
lemma recordCells_safe (o : JsonValue) (cc : List (String × String)) :
    ∀ (tc : List String), coerceAllOk o cc tc = true →
    recordCells o cc tc = Except.ok (tc.filterMap (fun m =>
      (cc.find? (fun p => p.1 == m)).map (fun p => (p.1, cellOf o p.1 p.2)))) := by
  intro tc
  induction tc with
  | nil => intro _; rfl
  | cons n rest ih =>
    intro hsafe
    rw [coerceAllOk, List.all_cons, Bool.and_eq_true] at hsafe
    obtain ⟨hn, hrest⟩ := hsafe
    rw [← coerceAllOk] at hrest
    cases hf : cc.find? (fun p => p.1 == n) with
    | none =>
      simp [recordCells, List.filterMap_cons, hf, ih hrest]
    | some p =>
      obtain ⟨nm, ty⟩ := p
      cases hg : o.get nm with
      | none =>
        simp [recordCells, List.filterMap_cons, hf, hg, ih hrest, cellOf]
      | some v =>
        cases hc : coerceCell ty v with
        | error e =>
          simp [hf, hg, hc] at hn
        | ok w =>
          simp [recordCells, List.filterMap_cons, hf, hg, hc, ih hrest, cellOf]

/-- C2, amended: during decode, a field value that is present but not a JSON
integer leaves the requested timestamp cell empty only, and the rest of the
row still materializes: the record decodes successfully and every requested
schema column receives its coerced cell.  (A present JSON integer outside
the representable range instead aborts the decode: see the counterexample.) -/
theorem C2_timestamp_amended (o : JsonValue) (cc : List (String × String))
    (tc : List String) (n : String) (v : JsonValue)
    (hsafe : coerceAllOk o cc tc = true)
    (hmem : n ∈ tc)
    (hfind : cc.find? (fun p => p.1 == n) = some (n, "timestamp"))
    (hget : o.get n = some v)
    (hni : v.asI64 = none) :
    ∃ row, recordToRow o cc tc = Except.ok row
      ∧ (n, (none : Option Cell)) ∈ row.cells
      ∧ ∀ m ∈ tc, ∀ p, cc.find? (fun q => q.1 == m) = some p →
          (p.1, cellOf o p.1 p.2) ∈ row.cells := by
  have hrc := recordCells_safe o cc tc hsafe
  have hmem1 : (n, (none : Option Cell)) ∈ tc.filterMap (fun m =>
      (cc.find? (fun p => p.1 == m)).map (fun p => (p.1, cellOf o p.1 p.2))) := by
    refine List.mem_filterMap.mpr ⟨n, hmem, ?_⟩
    rw [hfind]
    simp [cellOf, hget, coerceCell, hni]
  have hmemAll : ∀ m ∈ tc, ∀ p, cc.find? (fun q => q.1 == m) = some p →
      (p.1, cellOf o p.1 p.2) ∈ tc.filterMap (fun m =>
        (cc.find? (fun p => p.1 == m)).map (fun p => (p.1, cellOf o p.1 p.2))) := by
    intro m hm p hp
    exact List.mem_filterMap.mpr ⟨m, hm, by rw [hp]; rfl⟩
  by_cases hat : tc.any (fun c => c == "attrs") = true
  · refine ⟨⟨(tc.filterMap (fun m => (cc.find? (fun p => p.1 == m)).map
        (fun p => (p.1, cellOf o p.1 p.2)))) ++ [("attrs", some (Cell.Json o))]⟩, ?_, ?_, ?_⟩
    · simp [recordToRow, hrc, hat]
    · exact List.mem_append_left _ hmem1
    · intro m hm p hp
      exact List.mem_append_left _ (hmemAll m hm p hp)
  · refine ⟨⟨tc.filterMap (fun m => (cc.find? (fun p => p.1 == m)).map
        (fun p => (p.1, cellOf o p.1 p.2)))⟩, ?_, hmem1, hmemAll⟩
    simp [recordToRow, hrc, hat]

/-- Witness for the amended C2: a customers record whose `created` field
holds a string decodes with an empty `created` cell and a populated `id`
cell. -/
theorem C2_amended_witness :
    ∃ row, recordToRow
        (JsonValue.obj [("id", JsonValue.str "cus_1"), ("created", JsonValue.str "oops")])
        [("id", "string"), ("email", "string"), ("name", "string"),
         ("description", "string"), ("created", "timestamp")] ["id", "created"]
      = Except.ok row
      ∧ ("created", (none : Option Cell)) ∈ row.cells
      ∧ ∀ m ∈ ["id", "created"], ∀ p,
          ([("id", "string"), ("email", "string"), ("name", "string"),
            ("description", "string"), ("created", "timestamp")].find?
              (fun q => q.1 == m)) = some p →
          (p.1, cellOf (JsonValue.obj [("id", JsonValue.str "cus_1"),
            ("created", JsonValue.str "oops")]) p.1 p.2) ∈ row.cells :=
  C2_timestamp_amended _ _ _ "created" (JsonValue.str "oops") rfl (by simp) rfl rfl rfl

/-- The schema type tag a scalar cell decodes from; `none` on non-scalar
cells. -/
def scalarType : Cell → Option String
  | Cell.Bool _ => some "bool"
  | Cell.I64 _ => some "i64"
  | Cell.String _ => some "string"
  | _ => none

/-- The JSON value the encoder writes for a scalar cell (placeholder on the
non-scalar cells, which the encode lemmas exclude). -/
def cellJson : Cell → JsonValue
  | Cell.Bool b => JsonValue.bool b
  | Cell.I64 k => JsonValue.num k
  | Cell.String s => JsonValue.str s
  | _ => JsonValue.null

/-- Inserting a fresh key appends the pair. -/
lemma mapInsert_fresh : ∀ (m : List (String × JsonValue)) (k : String) (v : JsonValue),
    (∀ q ∈ m, q.1 ≠ k) → mapInsert m k v = m ++ [(k, v)] := by
  intro m k v
  induction m with
  | nil => intro _; rfl
  | cons q rest ih =>
    intro h
    obtain ⟨k0, v0⟩ := q
    have hk : k0 ≠ k := h (k0, v0) (List.mem_cons_self _ _)
    simp [mapInsert, hk, ih (fun q hq => h q (List.mem_cons_of_mem _ hq))]

/-- Encoding a row of scalar cells with pairwise distinct, fresh column names
produces the object of their JSON images in order, with no error. -/
lemma row_to_body_go_scalars :
    ∀ (cells : List (String × Cell)) (m : List (String × JsonValue)),
    (∀ p ∈ cells, (scalarType p.2).isSome) →
    (∀ p ∈ cells, ∀ q ∈ m, q.1 ≠ p.1) →
    (cells.map Prod.fst).Nodup →
    row_to_body_go (cells.map (fun p => (p.1, some p.2))) m
      = (JsonValue.obj (m ++ cells.map (fun p => (p.1, cellJson p.2))), false) := by
  intro cells
  induction cells with
  | nil => intro m _ _ _; simp [row_to_body_go]
  | cons p rest ih =>
    intro m hsc hfresh hnd
    obtain ⟨n, c⟩ := p
    have hfr : ∀ q ∈ m, q.1 ≠ n := fun q hq => hfresh (n, c) (List.mem_cons_self _ _) q hq
    have hnd' : (rest.map Prod.fst).Nodup := (List.nodup_cons.mp hnd).2
    have hnotin : n ∉ rest.map Prod.fst := (List.nodup_cons.mp hnd).1
    have hsc' : ∀ p ∈ rest, (scalarType p.2).isSome :=
      fun p hp => hsc p (List.mem_cons_of_mem _ hp)
    have hscn := hsc (n, c) (List.mem_cons_self _ _)
    have hfresh' : ∀ (j : JsonValue), ∀ p ∈ rest, ∀ q ∈ m ++ [(n, j)], q.1 ≠ p.1 := by
      intro j p hp q hq
      rcases List.mem_append.mp hq with hq | hq
      · exact hfresh p (List.mem_cons_of_mem _ hp) q hq
      · rcases List.mem_singleton.mp hq with rfl
        intro e
        have e' : n = p.1 := e
        refine hnotin ?_
        rw [e']
        exact List.mem_map_of_mem Prod.fst hp
    cases c with
    | Bool b =>
      have h1 : row_to_body_go ((⟨n, Cell.Bool b⟩ :: rest).map fun p => (p.1, some p.2)) m
          = row_to_body_go (rest.map fun p => (p.1, some p.2))
              (mapInsert m n (JsonValue.bool b)) := rfl
      rw [h1, mapInsert_fresh m n _ hfr, ih _ hsc' (hfresh' _) hnd']
      simp [cellJson]
    | I64 k =>
      have h1 : row_to_body_go ((⟨n, Cell.I64 k⟩ :: rest).map fun p => (p.1, some p.2)) m
          = row_to_body_go (rest.map fun p => (p.1, some p.2))
              (mapInsert m n (JsonValue.num k)) := rfl
      rw [h1, mapInsert_fresh m n _ hfr, ih _ hsc' (hfresh' _) hnd']
      simp [cellJson]
    | String s =>
      have h1 : row_to_body_go ((⟨n, Cell.String s⟩ :: rest).map fun p => (p.1, some p.2)) m
          = row_to_body_go (rest.map fun p => (p.1, some p.2))
              (mapInsert m n (JsonValue.str s)) := rfl
      rw [h1, mapInsert_fresh m n _ hfr, ih _ hsc' (hfresh' _) hnd']
      simp [cellJson]
    | Timestamp t => simp [scalarType] at hscn
    | Json v => simp [scalarType] at hscn

/-- Lookup misses keys not present in the object. -/
lemma lookupKV_not_mem : ∀ (m : List (String × JsonValue)) (k : String),
    k ∉ m.map Prod.fst → lookupKV k m = none := by
  intro m k
  induction m with
  | nil => intro _; rfl
  | cons q rest ih =>
    intro h
    obtain ⟨k0, v0⟩ := q
    simp only [List.map_cons, List.mem_cons] at h
    push_neg at h
    obtain ⟨h1, h2⟩ := h
    have h1' : k0 ≠ k := fun e => h1 e.symm
    simp [lookupKV, h1', ih h2]

/-- Lookup in the encoded object finds each cell's JSON image. -/
lemma lookupKV_cellJson : ∀ (cells : List (String × Cell)) (n : String) (c : Cell),
    (cells.map Prod.fst).Nodup → (n, c) ∈ cells →
    lookupKV n (cells.map (fun p => (p.1, cellJson p.2))) = some (cellJson c) := by
  intro cells
  induction cells with
  | nil => intro n c _ h; cases h
  | cons q rest ih =>
    intro n c hnd hm
    obtain ⟨k0, c0⟩ := q
    rcases List.mem_cons.mp hm with heq | hm2
    · cases heq
      simp [lookupKV]
    · have hnotin : k0 ∉ rest.map Prod.fst := (List.nodup_cons.mp hnd).1
      have hne : k0 ≠ n := by
        intro e
        subst e
        exact hnotin (List.mem_map_of_mem Prod.fst hm2)
      simp [lookupKV, hne, ih n c (List.nodup_cons.mp hnd).2 hm2]

/-- Decoding the encoded object through a schema whose types match the cells
reproduces every cell. -/
lemma recordCells_roundtrip (M : List (String × JsonValue)) (cc : List (String × String)) :
    ∀ (cells : List (String × Cell)),
    (∀ p ∈ cells, ∃ ty, scalarType p.2 = some ty
        ∧ cc.find? (fun q => q.1 == p.1) = some (p.1, ty)) →
    (∀ p ∈ cells, lookupKV p.1 M = some (cellJson p.2)) →
    (∀ p ∈ cells, ∀ k : Int, p.2 = Cell.I64 k → -(2 ^ 63) ≤ k ∧ k < 2 ^ 63) →
    recordCells (JsonValue.obj M) cc (cells.map Prod.fst)
      = Except.ok (cells.map (fun p => (p.1, some p.2))) := by
  intro cells
  induction cells with
  | nil => intro _ _ _; rfl
  | cons p rest ih =>
    intro hschema hlook hrange
    obtain ⟨n, c⟩ := p
    obtain ⟨ty, hsc, hfind⟩ := hschema (n, c) (List.mem_cons_self _ _)
    have hget : (JsonValue.obj M).get n = some (cellJson c) := by
      simp [JsonValue.get, JsonValue.asObject, hlook (n, c) (List.mem_cons_self _ _)]
    have hco : coerceCell ty (cellJson c) = Except.ok (some c) := by
      cases c with
      | Bool b => injection hsc with hty; subst hty; rfl
      | String s => injection hsc with hty; subst hty; rfl
      | I64 k =>
        injection hsc with hty
        subst hty
        have hb := hrange (n, Cell.I64 k) (List.mem_cons_self _ _) k rfl
        have hai : JsonValue.asI64 (JsonValue.num k) = some k := by
          rw [JsonValue.asI64, if_pos hb]
        simp [coerceCell, cellJson, hai]
      | Timestamp t => simp [scalarType] at hsc
      | Json v => simp [scalarType] at hsc
    simp only [List.map_cons]
    simp [recordCells, hfind, hget, hco,
      ih (fun p hp => hschema p (List.mem_cons_of_mem _ hp))
        (fun p hp => hlook p (List.mem_cons_of_mem _ hp))
        (fun p hp => hrange p (List.mem_cons_of_mem _ hp))]

/-- C7: a row whose populated cells are scalars sitting on schema fields of
the matching type (with `i64` payloads in the 64-bit range, as in the
source, and no column named `object` or `attrs`, as in every schema of the
registry), encoded to a JSON body and decoded back through the same schema
with the same columns requested, reproduces exactly the original row. -/
theorem C7_scalar_roundtrip (cells : List (String × Cell)) (cc : List (String × String))
    (hnd : (cells.map Prod.fst).Nodup)
    (hobj : "object" ∉ cells.map Prod.fst)
    (hattrs : "attrs" ∉ cells.map Prod.fst)
    (hschema : ∀ p ∈ cells, ∃ ty, scalarType p.2 = some ty
        ∧ cc.find? (fun q => q.1 == p.1) = some (p.1, ty))
    (hrange : ∀ p ∈ cells, ∀ k : Int, p.2 = Cell.I64 k → -(2 ^ 63) ≤ k ∧ k < 2 ^ 63) :
    ∃ cursor hm,
      body_to_rows (row_to_body ⟨cells.map (fun p => (p.1, some p.2))⟩).1 "data" cc
          (cells.map Prod.fst)
        = Except.ok ([⟨cells.map (fun p => (p.1, some p.2))⟩], cursor, hm) := by
  have hsc : ∀ p ∈ cells, (scalarType p.2).isSome := by
    intro p hp
    obtain ⟨ty, h1, -⟩ := hschema p hp
    simp [h1]
  have henc : row_to_body ⟨cells.map (fun p => (p.1, some p.2))⟩
      = (JsonValue.obj (cells.map (fun p => (p.1, cellJson p.2))), false) := by
    have h := row_to_body_go_scalars cells [] hsc (by intro p hp q hq; cases hq) hnd
    simpa [row_to_body] using h
  rw [henc]
  have hMfst : (cells.map (fun p => (p.1, cellJson p.2))).map Prod.fst = cells.map Prod.fst := by
    simp [List.map_map, Function.comp]
  have hobjM : (JsonValue.obj (cells.map (fun p => (p.1, cellJson p.2)))).get "object" = none := by
    simp only [JsonValue.get, JsonValue.asObject, Option.some_bind]
    exact lookupKV_not_mem _ "object" (by rw [hMfst]; exact hobj)
  have hrc := recordCells_roundtrip (cells.map (fun p => (p.1, cellJson p.2))) cc cells hschema
    (by
      intro p hp
      obtain ⟨n2, c2⟩ := p
      exact lookupKV_cellJson cells n2 c2 hnd hp)
    hrange
  have hat : (cells.map Prod.fst).any (fun c => c == "attrs") = false := by
    rw [← Bool.not_eq_true, List.any_eq_true]
    rintro ⟨x, hx, hbeq⟩
    rw [beq_iff_eq] at hbeq
    exact hattrs (hbeq ▸ hx)
  have hrow : recordToRow (JsonValue.obj (cells.map (fun p => (p.1, cellJson p.2)))) cc
      (cells.map Prod.fst) = Except.ok ⟨cells.map (fun p => (p.1, some p.2))⟩ := by
    simp [recordToRow, hrc, hat]
  refine ⟨((JsonValue.obj (cells.map (fun p => (p.1, cellJson p.2)))).get "id").bind
      JsonValue.asStr,
    ((JsonValue.obj (cells.map (fun p => (p.1, cellJson p.2)))).get "has_more").bind
      JsonValue.asBool, ?_⟩
  simp [body_to_rows, hobjM, JsonValue.asObject, mapRecords, hrow]

/-- Witness for C7: a three-column scalar row round-trips through a matching
schema. -/
theorem C7_witness :
    ∃ cursor hm,
      body_to_rows (row_to_body ⟨[("id", some (Cell.String "prod_1")),
          ("active", some (Cell.Bool true)), ("amount", some (Cell.I64 5))]⟩).1 "data"
        [("id", "string"), ("active", "bool"), ("amount", "i64")]
        ["id", "active", "amount"]
      = Except.ok ([⟨[("id", some (Cell.String "prod_1")),
          ("active", some (Cell.Bool true)), ("amount", some (Cell.I64 5))]⟩], cursor, hm) :=
  C7_scalar_roundtrip
    [("id", Cell.String "prod_1"), ("active", Cell.Bool true), ("amount", Cell.I64 5)]
    [("id", "string"), ("active", "bool"), ("amount", "i64")]
    (by decide) (by decide) (by decide)
    (by
      intro p hp
      simp only [List.mem_cons, List.not_mem_nil, or_false] at hp
      rcases hp with rfl | rfl | rfl
      · exact ⟨"string", rfl, rfl⟩
      · exact ⟨"bool", rfl, rfl⟩
      · exact ⟨"i64", rfl, rfl⟩)
    (by
      intro p hp k hk
      simp only [List.mem_cons, List.not_mem_nil, or_false] at hp
      rcases hp with rfl | rfl | rfl
      · simp at hk
      · simp at hk
      · injection hk with h
        subst h
        constructor <;> decide)

/-- C10: decoding is not total over well-formed JSON.  A bare top-level
array, a list envelope without the record-array key, and a list envelope
whose record key is not an array all reach an unguarded unwrap (modelled as
`Except.error`) instead of yielding rows or a reported decode error. -/
theorem C10_decode_not_total :
    body_to_rows (JsonValue.arr [JsonValue.num 1]) "data" [] [] = Except.error ()
    ∧ body_to_rows (JsonValue.obj [("object", JsonValue.str "list")]) "data" [] []
        = Except.error ()
    ∧ body_to_rows (JsonValue.obj [("object", JsonValue.str "list"), ("data", JsonValue.num 3)])
        "data" [] [] = Except.error () :=
  ⟨rfl, rfl, rfl⟩

end StripeFdw
